import Mathlib

/-!
Verification development for the s3s event-stream framing codec, checksum
engine and streaming adapter (crates/s3s/src/dto/event_stream.rs,
crates/s3s/src/crypto.rs, crates/s3s/src/checksum.rs).

Bytes are modelled as `Nat` (values below 256 in the real code); machine
integers are `Nat` with explicit bounds (`< 2^8`, `< 2^16`, `< 2^32`,
`< 2^64`) at the points where the Rust code performs checked conversions
or checked arithmetic.
-/

set_option maxRecDepth 100000

deriving instance DecidableEq for Except

namespace S3s

/-- Model of `usize::checked_add`: the sum when it fits in 64 bits, else `none`. -/
def checkedAdd (a b : Nat) : Option Nat :=
  if a + b < 18446744073709551616 then some (a + b) else none

/-- Serialization error type, from `enum SerError` in event_stream.rs.
`IntOverflow` carries a `TryFromIntError` payload in Rust; the payload is a
unit-like marker and is dropped here. -/
inductive SerError where
  | lengthOverflow : SerError
  | intOverflow : SerError
deriving DecidableEq

/-- Model of `u8::try_from` on a `usize`: `Ok` with the same value when it
fits in 8 bits, otherwise the `IntOverflow` serialization error. -/
def u8TryFrom (n : Nat) : Except SerError Nat :=
  if n < 256 then .ok n else .error .intOverflow

/-- Model of `u16::try_from` on a `usize`. -/
def u16TryFrom (n : Nat) : Except SerError Nat :=
  if n < 65536 then .ok n else .error .intOverflow

/-- Model of `u32::try_from` on a `usize`. -/
def u32TryFrom (n : Nat) : Except SerError Nat :=
  if n < 4294967296 then .ok n else .error .intOverflow

/-- Big-endian 2-byte encoding, as written by `BufMut::put_u16`. -/
def be16 (n : Nat) : List Nat :=
  [n / 256 % 256, n % 256]

/-- Big-endian 4-byte encoding, as written by `BufMut::put_u32`. -/
def be32 (n : Nat) : List Nat :=
  [n / 16777216 % 256, n / 65536 % 256, n / 256 % 256, n % 256]

/-- Big-endian interpretation of a byte list, as read by `u32::from_be_bytes`
and `u16::from_be_bytes` in the decoder. -/
def beToNat (bs : List Nat) : Nat :=
  bs.foldl (fun a b => a * 256 + b) 0

/-- Header of a frame: a name and a value, both byte strings
(struct Header in event_stream.rs). -/
structure Header where
  name : List Nat
  value : List Nat
deriving DecidableEq

/-- Message/Frame: ordered headers plus optional payload
(struct Message in event_stream.rs). -/
structure Message where
  headers : List Header
  payload : Option (List Nat)
deriving DecidableEq

/-- Reversed CRC-32/ISO-HDLC polynomial, the algorithm selected by
`crc_fast::CrcAlgorithm::Crc32IsoHdlc` in crypto.rs. -/
def crc32Poly : Nat := 0xEDB88320

/-- Reversed CRC-32C (Castagnoli) polynomial, the algorithm selected by
`crc_fast::CrcAlgorithm::Crc32Iscsi` in crypto.rs. -/
def crc32cPoly : Nat := 0x82F63B78

/-- Reversed CRC-64/NVMe polynomial, the algorithm selected by
`crc_fast::CrcAlgorithm::Crc64Nvme` in crypto.rs. -/
def crc64NvmePoly : Nat := 0x9A6C9329AC4BC9B5

/-- One shift-and-conditionally-xor step of a reflected CRC. -/
def crcBitStep (poly r : Nat) : Nat :=
  if r % 2 = 1 then (r / 2) ^^^ poly else r / 2

/-- Absorb one byte into a reflected CRC register: xor the byte in
(`% 256` makes the u8 width of the absorbed byte explicit), then run
eight bit steps. -/
def crcByteStep (poly reg b : Nat) : Nat :=
  (crcBitStep poly)^[8] (reg ^^^ b % 256)

/-- Absorb a byte sequence into a reflected CRC register; models
`crc_fast::Digest::update`. -/
def crcUpdate (poly reg : Nat) (data : List Nat) : Nat :=
  data.foldl (crcByteStep poly) reg

namespace Crc32

/-- Initial register of CRC-32/ISO-HDLC (all ones). -/
def init : Nat := 0xFFFFFFFF

/-- Final xor of CRC-32/ISO-HDLC. -/
def xorOut : Nat := 0xFFFFFFFF

/-- Model of `Crc32::checksum_u32` in crypto.rs: one-shot CRC-32/ISO-HDLC
of a byte sequence, returned as the raw 32-bit value (the `u64` to `u32`
truncating cast of the source is the identity for a 32-bit CRC). -/
def checksum_u32 (data : List Nat) : Nat :=
  crcUpdate crc32Poly init data ^^^ xorOut

end Crc32

/-- Wire encoding of one header: `name_len:u8, name, value_type:u8(=7),
value_len:u16(BE), value`, with the two checked narrowing casts of the
header loop in `Message::serialize`. -/
def encodeHeader (h : Header) : Except SerError (List Nat) :=
  match u8TryFrom h.name.length, u16TryFrom h.value.length with
  | .ok nl, .ok vl => .ok ([nl] ++ h.name ++ [7] ++ be16 vl ++ h.value)
  | .error e, _ => .error e
  | .ok _, .error e => .error e

/-- Wire encoding of the whole headers region, headers in order; the first
failing header aborts, as in the `for h in &self.headers` loop. -/
def encodeHeaders : List Header → Except SerError (List Nat)
  | [] => .ok []
  | h :: t =>
    match encodeHeader h, encodeHeaders t with
    | .ok b, .ok r => .ok (b ++ r)
    | .error e, _ => .error e
    | .ok _, .error e => .error e

/-- Checked byte length of the headers region: the `try_fold` in
`Message::serialize`, adding `1 + 1 + 2 + len(name) + len(value)` per
header with `usize::checked_add`. -/
def headersLen (hs : List Header) : Option Nat :=
  hs.foldl
    (fun acc h =>
      acc.bind fun a =>
      (checkedAdd a (1 + 1 + 2)).bind fun a =>
      (checkedAdd a h.name.length).bind fun a =>
      checkedAdd a h.value.length)
    (some 0)

/-- Payload byte length: `self.payload.as_ref().map_or(0, Bytes::len)`. -/
def Message.payloadLen (m : Message) : Nat :=
  match m.payload with
  | none => 0
  | some p => p.length

/-- Buffer assembly of `Message::serialize` after all checks passed: the
two length fields, the prelude CRC over them, the headers region, the
payload, and the message CRC over everything before it. -/
def assemble (totalLen hdrsLen : Nat) (hb pl : List Nat) : List Nat :=
  (be32 totalLen ++ be32 hdrsLen ++
      be32 (Crc32.checksum_u32 (be32 totalLen ++ be32 hdrsLen)) ++ hb ++ pl) ++
    be32 (Crc32.checksum_u32
      (be32 totalLen ++ be32 hdrsLen ++
        be32 (Crc32.checksum_u32 (be32 totalLen ++ be32 hdrsLen)) ++ hb ++ pl))

/-- Model of `Message::serialize` in event_stream.rs: checked length
computation (headers sum, `+ 4 + 4 + 4 + 4`, `+ payload_len`, then the two
`u32::try_from` casts, in source order), then buffer assembly with the
per-header checked casts. -/
def Message.serialize (m : Message) : Except SerError (List Nat) :=
  match ((headersLen m.headers).bind fun acc => checkedAdd acc (4 + 4 + 4 + 4)).bind
      (fun acc => checkedAdd acc m.payloadLen) with
  | none => .error .lengthOverflow
  | some totalLen =>
    match u32TryFrom totalLen with
    | .error e => .error e
    | .ok totalLen =>
      match headersLen m.headers with
      | none => .error .lengthOverflow
      | some hn =>
        match u32TryFrom hn with
        | .error e => .error e
        | .ok hn =>
          match encodeHeaders m.headers with
          | .error e => .error e
          | .ok hb => .ok (assemble totalLen hn hb (m.payload.getD []))

/-- Header-region decoding loop of the frame decoder (`parse_message` in
event_stream.rs): reads `name_len:u8, name, value_type(must be 7),
value_len:u16(BE), value` repeatedly until the region is exhausted. The
Rust loop walks an offset and panics on malformed input; here the region
slice is consumed directly and malformed input yields `none`, and header
names/values stay raw byte strings. Fuel (one unit per header) makes the
recursion structural. -/
def parseHeadersGo : Nat → List Nat → Option (List (List Nat × List Nat))
  | _, [] => some []
  | 0, _ :: _ => none
  | fuel + 1, nameLen :: rest =>
    if nameLen ≤ rest.length then
      match rest.drop nameLen with
      | vt :: v1 :: v2 :: rest2 =>
        if vt = 7 then
          if v1 * 256 + v2 ≤ rest2.length then
            (parseHeadersGo fuel (rest2.drop (v1 * 256 + v2))).map
              (fun t => (rest.take nameLen, rest2.take (v1 * 256 + v2)) :: t)
          else none
        else none
      | _ => none
    else none

/-- Header-region decoder at full fuel (the region never holds more
headers than bytes). -/
def parseHeaders (region : List Nat) : Option (List (List Nat × List Nat)) :=
  parseHeadersGo region.length region

/-- Frame decoder, from `parse_message` in event_stream.rs: checks the
minimum size, the `total_length` field against the actual size, both CRCs,
then decodes the headers region and takes the remaining bytes before the
message CRC as the payload — `Some` only when that remainder is nonempty. -/
def parseMessage (data : List Nat) :
    Option (List (List Nat × List Nat) × Option (List Nat)) :=
  if data.length < 16 then none
  else
    let totalLen := beToNat (data.take 4)
    let hdrsLen := beToNat ((data.drop 4).take 4)
    if data.length ≠ totalLen then none
    else if beToNat ((data.drop 8).take 4) ≠ Crc32.checksum_u32 (data.take 8) then none
    else if beToNat (data.drop (totalLen - 4)) ≠
        Crc32.checksum_u32 (data.take (totalLen - 4)) then none
    else if totalLen - 4 < 12 + hdrsLen then none
    else
      match parseHeaders ((data.drop 12).take hdrsLen) with
      | none => none
      | some hdrs =>
        some (hdrs,
          if 12 + hdrsLen < totalLen - 4 then
            some ((data.drop (12 + hdrsLen)).take (totalLen - 4 - (12 + hdrsLen)))
          else none)

/-- Byte string of a static ASCII string literal, as built by
`static_str` / `Bytes::from_static` in event_stream.rs. -/
def staticStr (s : String) : List Nat :=
  s.data.map Char.toNat

/-- Header-name constant `EVENT_TYPE` in event_stream.rs. -/
def EVENT_TYPE : String := ":event-type"

/-- Header-name constant `MESSAGE_TYPE` in event_stream.rs. -/
def MESSAGE_TYPE : String := ":message-type"

/-- Header-name constant `CONTENT_TYPE` in event_stream.rs. -/
def CONTENT_TYPE : String := ":content-type"

/-- Model of `const_headers`: builds the header list from static
name/value string pairs, in order. -/
def constHeaders (hs : List (String × String)) : List Header :=
  hs.map fun p => ⟨staticStr p.1, staticStr p.2⟩

/-- Modelled from the spec: the `Progress` details record of the dto layer
(not under src/); its fields (bytes processed / returned / scanned, each
optional) are visible in the event_stream.rs tests. Its content only
passes through the XML serializer collaborator. -/
structure Progress where
  bytes_processed : Option Int
  bytes_returned : Option Int
  bytes_scanned : Option Int
deriving DecidableEq

/-- Modelled from the spec: the `Stats` details record of the dto layer
(not under src/), same shape as `Progress`. -/
structure Stats where
  bytes_processed : Option Int
  bytes_returned : Option Int
  bytes_scanned : Option Int
deriving DecidableEq

/-- Modelled from the spec: `ContinuationEvent` dto struct (no fields). -/
structure ContinuationEvent where
deriving DecidableEq

/-- Modelled from the spec: `EndEvent` dto struct (no fields). -/
structure EndEvent where
deriving DecidableEq

/-- Modelled from the spec: `ProgressEvent` dto struct — optional details. -/
structure ProgressEvent where
  details : Option Progress
deriving DecidableEq

/-- Modelled from the spec: `RecordsEvent` dto struct — optional raw payload. -/
structure RecordsEvent where
  payload : Option (List Nat)
deriving DecidableEq

/-- Modelled from the spec: `StatsEvent` dto struct — optional details. -/
structure StatsEvent where
  details : Option Stats
deriving DecidableEq

/-- Modelled from the spec: the `SelectObjectContentEvent` tagged union of
the dto layer (not under src/): Continuation, End, Progress, Records,
Stats. -/
inductive SelectObjectContentEvent where
  | cont (e : ContinuationEvent)
  | ending (e : EndEvent)
  | progress (e : ProgressEvent)
  | records (e : RecordsEvent)
  | stats (e : StatsEvent)
deriving DecidableEq

/-- Model of `ContinuationEvent::into_message`. -/
def ContinuationEvent.into_message (_ : ContinuationEvent) : Message :=
  { headers := constHeaders [(EVENT_TYPE, "Cont"), (MESSAGE_TYPE, "event")]
    payload := none }

/-- Model of `EndEvent::into_message`. -/
def EndEvent.into_message (_ : EndEvent) : Message :=
  { headers := constHeaders [(EVENT_TYPE, "End"), (MESSAGE_TYPE, "event")]
    payload := none }

/-- Model of `ProgressEvent::into_message`; `xmlP` stands for the external
XML serializer collaborator used by `xml_payload` (infallible by contract). -/
def ProgressEvent.into_message (xmlP : Progress → List Nat) (e : ProgressEvent) : Message :=
  { headers := constHeaders
      [(EVENT_TYPE, "Progress"), (CONTENT_TYPE, "text/xml"), (MESSAGE_TYPE, "event")]
    payload := e.details.map xmlP }

/-- Model of `RecordsEvent::into_message`. -/
def RecordsEvent.into_message (e : RecordsEvent) : Message :=
  { headers := constHeaders
      [(EVENT_TYPE, "Records"), (CONTENT_TYPE, "application/octet-stream"),
        (MESSAGE_TYPE, "event")]
    payload := e.payload }

/-- Model of `StatsEvent::into_message`; `xmlS` stands for the external
XML serializer collaborator for `Stats` details. -/
def StatsEvent.into_message (xmlS : Stats → List Nat) (e : StatsEvent) : Message :=
  { headers := constHeaders
      [(EVENT_TYPE, "Stats"), (CONTENT_TYPE, "text/xml"), (MESSAGE_TYPE, "event")]
    payload := e.details.map xmlS }

/-- Model of `SelectObjectContentEvent::into_message`: dispatch on the
variant. -/
def SelectObjectContentEvent.into_message (xmlP : Progress → List Nat)
    (xmlS : Stats → List Nat) : SelectObjectContentEvent → Message
  | .cont e => e.into_message
  | .ending e => e.into_message
  | .progress e => e.into_message xmlP
  | .records e => e.into_message
  | .stats e => e.into_message xmlS

/-- Modelled from the spec: `S3ErrorCode` (not under src/) as used by
`request_level_error` — either a well-known kind, for which
`as_static_str` yields its fixed name-table string, or a custom kind
carrying caller-supplied text. -/
inductive S3ErrorCode where
  | known (s : List Nat)
  | custom (s : List Nat)
deriving DecidableEq

/-- Modelled from the spec: `S3ErrorCode::as_static_str` — the fixed
name-table string for a well-known kind, `None` for a custom kind. -/
def S3ErrorCode.as_static_str : S3ErrorCode → Option (List Nat)
  | .known s => some s
  | .custom _ => none

/-- Modelled from the spec: `S3Error` (not under src/) as consumed by
`request_level_error` — a code and an optional message string. -/
structure S3Error where
  code : S3ErrorCode
  message : Option (List Nat)
deriving DecidableEq

/-- Model of `request_level_error` in event_stream.rs: three headers
(`:error-code`, `:error-message`, `:message-type: error`), no payload.
The inner `_ => unreachable!()` arm (a non-custom code whose
`as_static_str` is `None`) is modelled by an empty byte string. -/
def request_level_error (e : S3Error) : Message :=
  { headers :=
      [ ⟨staticStr ":error-code",
          match e.code.as_static_str with
          | some s => s
          | none =>
            match e.code with
            | .custom s => s
            | _ => []⟩,
        ⟨staticStr ":error-message",
          match e.message with
          | none => []
          | some s => s⟩,
        ⟨staticStr MESSAGE_TYPE, staticStr "error"⟩ ]
    payload := none }

/-- Model of `event_into_bytes`: a successful event is mapped through
§4.4 and serialized; a request-level error is mapped to the error frame
and serialized. -/
def event_into_bytes (xmlP : Progress → List Nat) (xmlS : Stats → List Nat) :
    Except S3Error SelectObjectContentEvent → Except SerError (List Nat)
  | .ok event => (event.into_message xmlP xmlS).serialize
  | .error err => (request_level_error err).serialize

/-- Observable behaviour of a Rust `Stream`: the (finite) item sequence it
yields and the `size_hint` it reports. -/
structure EventStreamModel (α : Type) where
  items : List α
  sizeHint : Nat × Option Nat
deriving DecidableEq

/-- Default `Stream::size_hint` of the futures crate, reported by any
`Stream` impl that does not override the method. -/
def streamDefaultSizeHint : Nat × Option Nat := (0, none)

/-- Model of `SelectObjectContentEventStream`: wraps an inner stream of
event results. -/
structure SelectObjectContentEventStream where
  inner : EventStreamModel (Except S3Error SelectObjectContentEvent)
deriving DecidableEq

/-- Model of `<SelectObjectContentEventStream as Stream>::poll_next`:
items are forwarded from the inner stream unchanged. -/
def SelectObjectContentEventStream.items (s : SelectObjectContentEventStream) :
    List (Except S3Error SelectObjectContentEvent) :=
  s.inner.items

/-- Model of `<SelectObjectContentEventStream as Stream>::size_hint`:
forwards the inner stream's hint. -/
def SelectObjectContentEventStream.sizeHint (s : SelectObjectContentEventStream) :
    Nat × Option Nat :=
  s.inner.sizeHint

/-- Model of `struct Wrapper(SelectObjectContentEventStream)`. -/
structure Wrapper where
  stream : SelectObjectContentEventStream
deriving DecidableEq

/-- Model of `<Wrapper as Stream>::poll_next`: each upstream item is
mapped through `event_into_bytes`; the stream ends when upstream ends.
The Rust chunk error type is the boxed `StdError`, which here is the only
error actually boxed, `SerError`. -/
def Wrapper.items (xmlP : Progress → List Nat) (xmlS : Stats → List Nat)
    (w : Wrapper) : List (Except SerError (List Nat)) :=
  w.stream.items.map (event_into_bytes xmlP xmlS)

/-- Model of `<Wrapper as Stream>::size_hint`: the impl does not override
the method, so the futures default applies. -/
def Wrapper.sizeHint (_ : Wrapper) : Nat × Option Nat :=
  streamDefaultSizeHint

/-- Model of `SelectObjectContentEventStream::into_byte_stream`: the byte
stream is the wrapper around the event stream. -/
def SelectObjectContentEventStream.into_byte_stream
    (xmlP : Progress → List Nat) (xmlS : Stats → List Nat)
    (s : SelectObjectContentEventStream) :
    EventStreamModel (Except SerError (List Nat)) :=
  { items := (Wrapper.mk s).items xmlP xmlS
    sizeHint := (Wrapper.mk s).sizeHint }

namespace Crc32c

/-- Initial register of CRC-32C (all ones). -/
def init : Nat := 0xFFFFFFFF

/-- Final xor of CRC-32C. -/
def xorOut : Nat := 0xFFFFFFFF

end Crc32c

namespace Crc64Nvme

/-- Initial register of CRC-64/NVMe (all ones, 64 bits). -/
def init : Nat := 0xFFFFFFFFFFFFFFFF

/-- Final xor of CRC-64/NVMe. -/
def xorOut : Nat := 0xFFFFFFFFFFFFFFFF

end Crc64Nvme

/-- Big-endian 8-byte encoding, as written by `u64::to_be_bytes`. -/
def be64 (n : Nat) : List Nat :=
  [n / 72057594037927936 % 256, n / 281474976710656 % 256,
    n / 1099511627776 % 256, n / 4294967296 % 256,
    n / 16777216 % 256, n / 65536 % 256, n / 256 % 256, n % 256]

/-- Standard base64 alphabet (base64_simd::STANDARD). -/
def base64Alphabet : List Char :=
  "ABCDEFGHIJKLMNOPQRSTUVWXYZabcdefghijklmnopqrstuvwxyz0123456789+/".data

/-- Character at a 6-bit index of the standard base64 alphabet. -/
def base64Char (n : Nat) : Char :=
  base64Alphabet.getD n 'A'

/-- Grouping loop of standard base64 with padding: three input bytes give
four characters, a final group of one or two bytes is padded with `=`. -/
def base64Go : List Nat → List Char
  | [] => []
  | [b1] => [base64Char (b1 / 4), base64Char (b1 % 4 * 16), '=', '=']
  | [b1, b2] =>
    [base64Char (b1 / 4), base64Char (b1 % 4 * 16 + b2 / 16),
      base64Char (b2 % 16 * 4), '=']
  | b1 :: b2 :: b3 :: rest =>
    base64Char (b1 / 4) :: base64Char (b1 % 4 * 16 + b2 / 16) ::
      base64Char (b2 % 16 * 4 + b3 / 64) :: base64Char (b3 % 64) ::
        base64Go rest

/-- Model of `ChecksumHasher::base64`
(`base64_simd::STANDARD.encode_to_string`): standard alphabet, padded. -/
def base64 (input : List Nat) : String :=
  ⟨base64Go input⟩

/-- Reduction to 32 bits, making u32 wraparound arithmetic explicit. -/
def w32 (n : Nat) : Nat := n % 4294967296

/-- Right rotation of a 32-bit word. -/
def rotr32 (k x : Nat) : Nat := w32 ((x >>> k) ||| (x <<< (32 - k)))

/-- Left rotation of a 32-bit word. -/
def rotl32 (k x : Nat) : Nat := w32 ((x <<< k) ||| (x >>> (32 - k)))

/-- Merkle–Damgård padding shared by SHA-1 and SHA-256: append `0x80`,
then zeros up to 56 mod 64 bytes, then the bit length as a big-endian
64-bit integer. -/
def shaPad (msg : List Nat) : List Nat :=
  msg ++ [128] ++ List.replicate ((120 - (msg.length + 1) % 64) % 64) 0 ++
    be64 (8 * msg.length)

/-- Big-endian 32-bit words of a byte sequence (trailing incomplete group
dropped; padded input has none). -/
def toWords32 : List Nat → List Nat
  | b1 :: b2 :: b3 :: b4 :: rest =>
    (b1 * 16777216 + b2 * 65536 + b3 * 256 + b4) :: toWords32 rest
  | _ => []

/-- Fuel-driven split into chunks of `n` elements. -/
def chunksGo (n : Nat) : Nat → List α → List (List α)
  | _, [] => []
  | 0, _ => []
  | fuel + 1, l => l.take n :: chunksGo n fuel (l.drop n)

/-- Split a list into chunks of `n` elements (last chunk possibly short). -/
def chunks (n : Nat) (l : List α) : List (List α) :=
  chunksGo n l.length l

namespace Sha256

/-- Round constants of SHA-256 (FIPS 180-4). -/
def k : List Nat :=
  [1116352408, 1899447441, 3049323471, 3921009573,
    961987163, 1508970993, 2453635748, 2870763221,
    3624381080, 310598401, 607225278, 1426881987,
    1925078388, 2162078206, 2614888103, 3248222580,
    3835390401, 4022224774, 264347078, 604807628,
    770255983, 1249150122, 1555081692, 1996064986,
    2554220882, 2821834349, 2952996808, 3210313671,
    3336571891, 3584528711, 113926993, 338241895,
    666307205, 773529912, 1294757372, 1396182291,
    1695183700, 1986661051, 2177026350, 2456956037,
    2730485921, 2820302411, 3259730800, 3345764771,
    3516065817, 3600352804, 4094571909, 275423344,
    430227734, 506948616, 659060556, 883997877,
    958139571, 1322822218, 1537002063, 1747873779,
    1955562222, 2024104815, 2227730452, 2361852424,
    2428436474, 2756734187, 3204031479, 3329325298]

/-- Initial hash state of SHA-256. -/
def init : List Nat :=
  [0x6a09e667, 0xbb67ae85, 0x3c6ef372, 0xa54ff53a,
    0x510e527f, 0x9b05688c, 0x1f83d9ab, 0x5be0cd19]

/-- Message-schedule extension of SHA-256: grow 16 words to 64. -/
def schedule (ws : List Nat) : List Nat :=
  (List.range 48).foldl
    (fun w _ =>
      let x15 := w.getD (w.length - 15) 0
      let x2 := w.getD (w.length - 2) 0
      let s0 := rotr32 7 x15 ^^^ rotr32 18 x15 ^^^ (x15 >>> 3)
      let s1 := rotr32 17 x2 ^^^ rotr32 19 x2 ^^^ (x2 >>> 10)
      w ++ [w32 (w.getD (w.length - 16) 0 + s0 + w.getD (w.length - 7) 0 + s1)])
    ws

/-- One SHA-256 compression round. -/
def round (s : List Nat) (kw : Nat × Nat) : List Nat :=
  match s with
  | [a, b, c, d, e, f, g, h] =>
    let bigS1 := rotr32 6 e ^^^ rotr32 11 e ^^^ rotr32 25 e
    let ch := (e &&& f) ^^^ ((e ^^^ 0xFFFFFFFF) &&& g)
    let temp1 := w32 (h + bigS1 + ch + kw.1 + kw.2)
    let bigS0 := rotr32 2 a ^^^ rotr32 13 a ^^^ rotr32 22 a
    let maj := (a &&& b) ^^^ (a &&& c) ^^^ (b &&& c)
    let temp2 := w32 (bigS0 + maj)
    [w32 (temp1 + temp2), a, b, c, w32 (d + temp1), e, f, g]
  | _ => s

/-- SHA-256 compression of one 64-byte block into the running state. -/
def compress (state : List Nat) (block : List Nat) : List Nat :=
  let w := schedule (toWords32 block)
  let final := (k.zip w).foldl round state
  state.zipWith (fun x y => w32 (x + y)) final

/-- Model of the external sha2 crate's SHA-256 (FIPS 180-4), the
collaborator behind `Checksum for Sha256` in crypto.rs: pad, then
compress each 64-byte block, then emit the state as big-endian bytes. -/
def hash (msg : List Nat) : List Nat :=
  ((chunks 64 (shaPad msg)).foldl compress init).foldr (fun x acc => be32 x ++ acc) []

end Sha256

namespace Sha1

/-- Initial hash state of SHA-1. -/
def init : List Nat :=
  [0x67452301, 0xEFCDAB89, 0x98BADCFE, 0x10325476, 0xC3D2E1F0]

/-- Message-schedule extension of SHA-1: grow 16 words to 80. -/
def schedule (ws : List Nat) : List Nat :=
  (List.range 64).foldl
    (fun w _ =>
      w ++ [rotl32 1
        (w.getD (w.length - 3) 0 ^^^ w.getD (w.length - 8) 0 ^^^
          w.getD (w.length - 14) 0 ^^^ w.getD (w.length - 16) 0)])
    ws

/-- One SHA-1 compression round; the round function and constant depend on
the round index. -/
def round (s : List Nat) (iw : Nat × Nat) : List Nat :=
  match s with
  | [a, b, c, d, e] =>
    let i := iw.1
    let f :=
      if i < 20 then (b &&& c) ^^^ ((b ^^^ 0xFFFFFFFF) &&& d)
      else if i < 40 then b ^^^ c ^^^ d
      else if i < 60 then (b &&& c) ^^^ (b &&& d) ^^^ (c &&& d)
      else b ^^^ c ^^^ d
    let kc :=
      if i < 20 then 0x5A827999
      else if i < 40 then 0x6ED9EBA1
      else if i < 60 then 0x8F1BBCDC
      else 0xCA62C1D6
    [w32 (rotl32 5 a + f + e + kc + iw.2), a, rotl32 30 b, c, d]
  | _ => s

/-- SHA-1 compression of one 64-byte block into the running state. -/
def compress (state : List Nat) (block : List Nat) : List Nat :=
  let w := schedule (toWords32 block)
  let final := ((List.range 80).zip w).foldl round state
  state.zipWith (fun x y => w32 (x + y)) final

/-- Model of the external sha1 crate's SHA-1 (FIPS 180-4), the
collaborator behind `Checksum for Sha1` in crypto.rs. -/
def hash (msg : List Nat) : List Nat :=
  ((chunks 64 (shaPad msg)).foldl compress init).foldr (fun x acc => be32 x ++ acc) []

end Sha1

/-- Model of `struct ChecksumHasher` in checksum.rs: one optional,
independently-progressing hasher per algorithm. The CRC hashers carry
their register; the SHA hashers are modelled by the byte sequence
absorbed so far (the external crates buffer and block-compress
internally, with the same observable digest). MD5 is excluded, as in the
source. -/
structure ChecksumHasher where
  crc32 : Option Nat
  crc32c : Option Nat
  sha1 : Option (List Nat)
  sha256 : Option (List Nat)
  crc64nvme : Option Nat
deriving DecidableEq

/-- Model of `ChecksumHasher::update`: every active hasher absorbs the
data; inactive ones are silently skipped. -/
def ChecksumHasher.update (h : ChecksumHasher) (data : List Nat) : ChecksumHasher :=
  { crc32 := h.crc32.map fun reg => crcUpdate crc32Poly reg data
    crc32c := h.crc32c.map fun reg => crcUpdate crc32cPoly reg data
    sha1 := h.sha1.map (· ++ data)
    sha256 := h.sha256.map (· ++ data)
    crc64nvme := h.crc64nvme.map fun reg => crcUpdate crc64NvmePoly reg data }

/-- Modelled from the spec: the `Checksum` dto record (not under src/) —
one optional base64 digest string per algorithm. -/
structure Checksum where
  checksum_crc32 : Option String
  checksum_crc32c : Option String
  checksum_sha1 : Option String
  checksum_sha256 : Option String
  checksum_crc64nvme : Option String
deriving DecidableEq

/-- Model of `ChecksumHasher::finalize`: each active hasher is finalized
(final xor and big-endian bytes for the CRCs, the hash of the absorbed
bytes for the SHAs) and base64-encoded; inactive ones yield `None`. -/
def ChecksumHasher.finalize (h : ChecksumHasher) : Checksum :=
  { checksum_crc32 := h.crc32.map fun reg => base64 (be32 (reg ^^^ Crc32.xorOut))
    checksum_crc32c := h.crc32c.map fun reg => base64 (be32 (reg ^^^ Crc32c.xorOut))
    checksum_sha1 := h.sha1.map fun bs => base64 (Sha1.hash bs)
    checksum_sha256 := h.sha256.map fun bs => base64 (Sha256.hash bs)
    checksum_crc64nvme := h.crc64nvme.map fun reg => base64 (be64 (reg ^^^ Crc64Nvme.xorOut)) }

/-- Name/value pairs of a header list, the decoder's view of the headers. -/
def headerPairs (hs : List Header) : List (List Nat × List Nat) :=
  hs.map fun h => (h.name, h.value)

/-- Wire byte length of a header list: `1 + 1 + 2 + len(name) + len(value)`
per header. -/
def headersWireLen : List Header → Nat
  | [] => 0
  | h :: t => 4 + h.name.length + h.value.length + headersWireLen t

/-- Spec-side restatement of the section 4.4 event-to-frame table:
fixed header set per variant (event-type, content-type where listed,
message-type: event) and the listed payload. Written from the spec table,
to be compared with `SelectObjectContentEvent.into_message`. -/
def specEventMessage (xmlP : Progress → List Nat) (xmlS : Stats → List Nat) :
    SelectObjectContentEvent → Message
  | .cont _ =>
    { headers := [⟨staticStr ":event-type", staticStr "Cont"⟩,
        ⟨staticStr ":message-type", staticStr "event"⟩]
      payload := none }
  | .ending _ =>
    { headers := [⟨staticStr ":event-type", staticStr "End"⟩,
        ⟨staticStr ":message-type", staticStr "event"⟩]
      payload := none }
  | .progress e =>
    { headers := [⟨staticStr ":event-type", staticStr "Progress"⟩,
        ⟨staticStr ":content-type", staticStr "text/xml"⟩,
        ⟨staticStr ":message-type", staticStr "event"⟩]
      payload := e.details.map xmlP }
  | .records e =>
    { headers := [⟨staticStr ":event-type", staticStr "Records"⟩,
        ⟨staticStr ":content-type", staticStr "application/octet-stream"⟩,
        ⟨staticStr ":message-type", staticStr "event"⟩]
      payload := e.payload }
  | .stats e =>
    { headers := [⟨staticStr ":event-type", staticStr "Stats"⟩,
        ⟨staticStr ":content-type", staticStr "text/xml"⟩,
        ⟨staticStr ":message-type", staticStr "event"⟩]
      payload := e.details.map xmlS }

/-- Spec-side error-code byte string: the fixed name-table string for a
well-known kind, the caller-supplied text for a custom kind. -/
def specErrorCodeBytes : S3ErrorCode → List Nat
  | .known s => s
  | .custom s => s

/-- Trivial XML serializer instance for `Progress`, used to instantiate
the collaborator parameter on concrete inputs. -/
def xmlP0 : Progress → List Nat := fun _ => []

/-- Trivial XML serializer instance for `Stats`. -/
def xmlS0 : Stats → List Nat := fun _ => []

/-- Concrete message with an explicitly empty payload. -/
def c1Message : Message :=
  { headers := [⟨staticStr ":event-type", staticStr "End"⟩], payload := some [] }

/-- Encoded bytes of `c1Message`. -/
def c1Bytes : List Nat :=
  match c1Message.serialize with
  | .ok b => b
  | .error _ => []

/-- Concrete message with a nonempty payload, for the round-trip witness. -/
def c1wMessage : Message :=
  { headers := [⟨staticStr ":event-type", staticStr "Records"⟩],
    payload := some [99, 115, 118] }

/-- Encoded bytes of `c1wMessage`. -/
def c1wBytes : List Nat :=
  match c1wMessage.serialize with
  | .ok b => b
  | .error _ => []

/-- Concrete request-level error with a well-known code and no message. -/
def c2Err : S3Error :=
  { code := .known (staticStr "InternalError"), message := none }

/-- Concrete upstream event stream ending in the terminal error `c2Err`. -/
def c2Stream : SelectObjectContentEventStream :=
  ⟨{ items := [.error c2Err], sizeHint := (0, none) }⟩

/-- Headers-region length of the `c2Err` error frame. -/
def c2Hn : Nat :=
  (headersLen (request_level_error c2Err).headers).getD 0

/-- Encoded headers region of the `c2Err` error frame. -/
def c2Hb : List Nat :=
  match encodeHeaders (request_level_error c2Err).headers with
  | .ok b => b
  | .error _ => []

/-- Serialized error frame of `c2Err`, written as the assembled buffer. -/
def c2Bytes : List Nat :=
  assemble (c2Hn + 16 + (request_level_error c2Err).payloadLen) c2Hn c2Hb
    ((request_level_error c2Err).payload.getD [])

/-- Concrete upstream stream with one pending event whose inner stream
reports the exact size hint `(1, some 1)`, as `futures::stream::iter` of
one item does. -/
def c3Stream : SelectObjectContentEventStream :=
  ⟨{ items := [.ok (.ending ⟨⟩)], sizeHint := (1, some 1) }⟩

/-- Header with a 256-byte name, one byte past the u8 limit. -/
def c4Header : Header :=
  { name := List.replicate 256 97, value := [] }

/-- Concrete message containing the oversized header `c4Header`. -/
def c4Message : Message :=
  { headers := [c4Header], payload := none }

/-- Concrete message for length-field and CRC witnesses. -/
def c5Message : Message :=
  { headers := [⟨staticStr ":message-type", staticStr "event"⟩],
    payload := some [1, 2, 3, 4] }

/-- Encoded bytes of `c5Message`. -/
def c5Bytes : List Nat :=
  match c5Message.serialize with
  | .ok b => b
  | .error _ => []

/-- Concrete message for the CRC-field witness. -/
def c6Message : Message :=
  { headers := [⟨staticStr ":event-type", staticStr "Cont"⟩], payload := none }

/-- Encoded bytes of `c6Message`. -/
def c6Bytes : List Nat :=
  match c6Message.serialize with
  | .ok b => b
  | .error _ => []

theorem checkedAdd_eq_some {a b c : Nat} :
    checkedAdd a b = some c ↔ a + b < 18446744073709551616 ∧ c = a + b := by
  unfold checkedAdd
  split
  · simp_all
    omega
  · simp_all

theorem u8TryFrom_eq_ok {n k : Nat} : u8TryFrom n = .ok k ↔ n < 256 ∧ k = n := by
  unfold u8TryFrom
  split <;> simp_all
  omega

theorem u16TryFrom_eq_ok {n k : Nat} : u16TryFrom n = .ok k ↔ n < 65536 ∧ k = n := by
  unfold u16TryFrom
  split <;> simp_all
  omega

theorem u32TryFrom_eq_ok {n k : Nat} : u32TryFrom n = .ok k ↔ n < 4294967296 ∧ k = n := by
  unfold u32TryFrom
  split <;> simp_all
  omega

theorem be32_length (n : Nat) : (be32 n).length = 4 := rfl

theorem be16_length (n : Nat) : (be16 n).length = 2 := rfl

theorem be64_length (n : Nat) : (be64 n).length = 8 := rfl

theorem beToNat_be32 {n : Nat} (h : n < 4294967296) : beToNat (be32 n) = n := by
  simp only [beToNat, be32, List.foldl]
  omega

theorem beToNat_be16 {n : Nat} (h : n < 65536) : beToNat (be16 n) = n := by
  simp only [beToNat, be16, List.foldl]
  omega

theorem crcBitStep_lt {poly r : Nat} (hp : poly < 4294967296)
    (hr : r < 4294967296) : crcBitStep poly r < 4294967296 := by
  unfold crcBitStep
  have hd : r / 2 < 4294967296 := Nat.lt_of_le_of_lt (Nat.div_le_self r 2) hr
  split
  · exact Nat.xor_lt_two_pow (n := 32) hd hp
  · exact hd

theorem iterate_crcBitStep_lt {poly : Nat} (hp : poly < 4294967296) :
    ∀ (n x : Nat), x < 4294967296 → (crcBitStep poly)^[n] x < 4294967296 := by
  intro n
  induction n with
  | zero => intro x hx; simpa using hx
  | succ n ih =>
    intro x hx
    rw [Function.iterate_succ_apply]
    exact ih _ (crcBitStep_lt hp hx)

theorem crcByteStep_lt {poly reg b : Nat} (hp : poly < 4294967296)
    (hr : reg < 4294967296) : crcByteStep poly reg b < 4294967296 := by
  unfold crcByteStep
  refine iterate_crcBitStep_lt hp 8 _ ?_
  refine Nat.xor_lt_two_pow (n := 32) hr ?_
  calc b % 256 < 256 := Nat.mod_lt _ (by omega)
  _ < 4294967296 := by omega

theorem crcUpdate_lt {poly reg : Nat} (data : List Nat) (hp : poly < 4294967296)
    (hr : reg < 4294967296) : crcUpdate poly reg data < 4294967296 := by
  induction data generalizing reg with
  | nil => simpa [crcUpdate]
  | cons b t ih =>
    simp only [crcUpdate, List.foldl]
    exact ih (crcByteStep_lt hp hr)

theorem crc32_checksum_u32_lt (data : List Nat) :
    Crc32.checksum_u32 data < 4294967296 := by
  unfold Crc32.checksum_u32
  refine Nat.xor_lt_two_pow (n := 32) ?_ (by norm_num [Crc32.xorOut])
  exact crcUpdate_lt data (by norm_num [crc32Poly]) (by norm_num [Crc32.init])

theorem encodeHeader_ok {h : Header} {b : List Nat} (he : encodeHeader h = .ok b) :
    h.name.length < 256 ∧ h.value.length < 65536 ∧
      b = [h.name.length] ++ h.name ++ [7] ++ be16 h.value.length ++ h.value := by
  unfold encodeHeader at he
  cases h8 : u8TryFrom h.name.length with
  | error e => rw [h8] at he; cases he
  | ok nl =>
    cases h16 : u16TryFrom h.value.length with
    | error e => rw [h8, h16] at he; cases he
    | ok vl =>
      rw [h8, h16] at he
      obtain ⟨hn, rfl⟩ := u8TryFrom_eq_ok.mp h8
      obtain ⟨hv, rfl⟩ := u16TryFrom_eq_ok.mp h16
      cases he
      exact ⟨hn, hv, rfl⟩

theorem encodeHeader_length {h : Header} {b : List Nat}
    (he : encodeHeader h = .ok b) :
    b.length = 4 + h.name.length + h.value.length := by
  obtain ⟨-, -, rfl⟩ := encodeHeader_ok he
  simp [be16]
  omega

theorem encodeHeaders_ok_forall {hs : List Header} {bs : List Nat}
    (he : encodeHeaders hs = .ok bs) :
    ∀ h ∈ hs, h.name.length < 256 ∧ h.value.length < 65536 := by
  induction hs generalizing bs with
  | nil => simp
  | cons h t ih =>
    unfold encodeHeaders at he
    cases h1 : encodeHeader h with
    | error e => rw [h1] at he; cases he
    | ok b =>
      cases h2 : encodeHeaders t with
      | error e => rw [h1, h2] at he; cases he
      | ok r =>
        intro x hx
        rcases List.mem_cons.mp hx with rfl | hx
        · obtain ⟨hn, hv, -⟩ := encodeHeader_ok h1
          exact ⟨hn, hv⟩
        · exact ih h2 x hx

theorem encodeHeaders_length {hs : List Header} {bs : List Nat}
    (he : encodeHeaders hs = .ok bs) : bs.length = headersWireLen hs := by
  induction hs generalizing bs with
  | nil =>
    unfold encodeHeaders at he
    cases he
    rfl
  | cons h t ih =>
    unfold encodeHeaders at he
    cases h1 : encodeHeader h with
    | error e => rw [h1] at he; cases he
    | ok b =>
      cases h2 : encodeHeaders t with
      | error e => rw [h1, h2] at he; cases he
      | ok r =>
        rw [h1, h2] at he
        cases he
        have hb := encodeHeader_length h1
        have hr := ih h2
        simp only [headersWireLen, List.length_append]
        omega

theorem headersLen_foldl_none (hs : List Header) :
    hs.foldl
      (fun acc h =>
        acc.bind fun a =>
        (checkedAdd a (1 + 1 + 2)).bind fun a =>
        (checkedAdd a h.name.length).bind fun a =>
        checkedAdd a h.value.length)
      none = none := by
  induction hs with
  | nil => rfl
  | cons h t ih => simpa [List.foldl, Option.bind] using ih

theorem headersLen_go {hs : List Header} :
    ∀ {a r : Nat},
      hs.foldl
        (fun acc h =>
          acc.bind fun a =>
          (checkedAdd a (1 + 1 + 2)).bind fun a =>
          (checkedAdd a h.name.length).bind fun a =>
          checkedAdd a h.value.length)
        (some a) = some r →
      r = a + headersWireLen hs := by
  induction hs with
  | nil =>
    intro a r h
    simp only [List.foldl] at h
    cases h
    simp [headersWireLen]
  | cons h t ih =>
    intro a r hf
    rw [List.foldl_cons, Option.some_bind] at hf
    cases h3 : checkedAdd a (1 + 1 + 2) with
    | none =>
      rw [h3, Option.none_bind, headersLen_foldl_none] at hf
      cases hf
    | some a1 =>
      rw [h3, Option.some_bind] at hf
      cases h4 : checkedAdd a1 h.name.length with
      | none =>
        rw [h4, Option.none_bind, headersLen_foldl_none] at hf
        cases hf
      | some a2 =>
        rw [h4, Option.some_bind] at hf
        cases h5 : checkedAdd a2 h.value.length with
        | none =>
          rw [h5, headersLen_foldl_none] at hf
          cases hf
        | some a3 =>
          rw [h5] at hf
          have h3' := checkedAdd_eq_some.mp h3
          have h4' := checkedAdd_eq_some.mp h4
          have h5' := checkedAdd_eq_some.mp h5
          have hrec := ih hf
          simp only [headersWireLen]
          omega

theorem headersLen_eq_some {hs : List Header} {n : Nat}
    (h : headersLen hs = some n) : n = headersWireLen hs := by
  unfold headersLen at h
  have := headersLen_go h
  omega

theorem serialize_ok_inv {m : Message} {out : List Nat}
    (h : m.serialize = .ok out) :
    ∃ hn hb,
      headersLen m.headers = some hn ∧
      encodeHeaders m.headers = .ok hb ∧
      hb.length = hn ∧
      hn + 16 + m.payloadLen < 4294967296 ∧
      out = assemble (hn + 16 + m.payloadLen) hn hb (m.payload.getD []) := by
  unfold Message.serialize at h
  split at h
  · cases h
  next totalLen htot =>
    split at h
    · cases h
    next tl h32 =>
      split at h
      · cases h
      next hn hhn =>
        split at h
        · cases h
        next hn' hh32 =>
          split at h
          · cases h
          next hb henc =>
            cases h
            obtain ⟨t1, ht1, ht2⟩ := Option.bind_eq_some.mp htot
            obtain ⟨hn0, hhn0, hadd⟩ := Option.bind_eq_some.mp ht1
            rw [hhn] at hhn0
            cases hhn0
            obtain ⟨ha1, ha1e⟩ := checkedAdd_eq_some.mp hadd
            obtain ⟨ha2, ha2e⟩ := checkedAdd_eq_some.mp ht2
            obtain ⟨htl, rfl⟩ := u32TryFrom_eq_ok.mp h32
            obtain ⟨hhn32, rfl⟩ := u32TryFrom_eq_ok.mp hh32
            subst ha1e
            subst ha2e
            refine ⟨hn', hb, hhn, henc, ?_, by omega, by norm_num⟩
            rw [encodeHeaders_length henc, headersLen_eq_some hhn]

theorem serialize_ok_of {m : Message} {hn : Nat} {hb : List Nat}
    (hhn : headersLen m.headers = some hn)
    (henc : encodeHeaders m.headers = .ok hb)
    (h32 : hn + 16 + m.payloadLen < 4294967296) :
    m.serialize = .ok (assemble (hn + 16 + m.payloadLen) hn hb (m.payload.getD [])) := by
  unfold Message.serialize
  rw [hhn]
  have h1 : checkedAdd hn (4 + 4 + 4 + 4) = some (hn + (4 + 4 + 4 + 4)) := by
    unfold checkedAdd
    rw [if_pos (by omega)]
  have h2 : checkedAdd (hn + (4 + 4 + 4 + 4)) m.payloadLen =
      some (hn + (4 + 4 + 4 + 4) + m.payloadLen) := by
    unfold checkedAdd
    rw [if_pos (by omega)]
  rw [Option.some_bind, h1, Option.some_bind, h2]
  have h3 : u32TryFrom (hn + (4 + 4 + 4 + 4) + m.payloadLen) =
      .ok (hn + (4 + 4 + 4 + 4) + m.payloadLen) := by
    unfold u32TryFrom
    rw [if_pos (by omega)]
  have h4 : u32TryFrom hn = .ok hn := by
    unfold u32TryFrom
    rw [if_pos (by omega)]
  dsimp only
  rw [h3]
  dsimp only
  rw [h4]
  dsimp only
  rw [henc]

theorem assemble_take4 (T H : Nat) (hb pl : List Nat) :
    (assemble T H hb pl).take 4 = be32 T := by
  have hsplit : assemble T H hb pl = be32 T ++
      (be32 H ++ (be32 (Crc32.checksum_u32 (be32 T ++ be32 H)) ++ (hb ++ (pl ++
        be32 (Crc32.checksum_u32 (be32 T ++ be32 H ++
          be32 (Crc32.checksum_u32 (be32 T ++ be32 H)) ++ hb ++ pl)))))) := by
    simp [assemble, List.append_assoc]
  rw [hsplit]
  exact List.take_left' (by simp [be32])

theorem assemble_length (T H : Nat) (hb pl : List Nat) :
    (assemble T H hb pl).length = 16 + hb.length + pl.length := by
  simp [assemble, be32]
  omega

theorem assemble_take8 (T H : Nat) (hb pl : List Nat) :
    (assemble T H hb pl).take 8 = be32 T ++ be32 H := by
  have hsplit : assemble T H hb pl = (be32 T ++ be32 H) ++
      (be32 (Crc32.checksum_u32 (be32 T ++ be32 H)) ++ (hb ++ (pl ++
        be32 (Crc32.checksum_u32 (be32 T ++ be32 H ++
          be32 (Crc32.checksum_u32 (be32 T ++ be32 H)) ++ hb ++ pl))))) := by
    simp [assemble, List.append_assoc]
  rw [hsplit]
  exact List.take_left' (by simp [be32])

theorem assemble_drop4_take4 (T H : Nat) (hb pl : List Nat) :
    ((assemble T H hb pl).drop 4).take 4 = be32 H := by
  have hsplit : assemble T H hb pl = be32 T ++
      (be32 H ++ (be32 (Crc32.checksum_u32 (be32 T ++ be32 H)) ++ (hb ++ (pl ++
        be32 (Crc32.checksum_u32 (be32 T ++ be32 H ++
          be32 (Crc32.checksum_u32 (be32 T ++ be32 H)) ++ hb ++ pl)))))) := by
    simp [assemble, List.append_assoc]
  rw [hsplit, List.drop_left' (by simp [be32])]
  exact List.take_left' (by simp [be32])

theorem assemble_drop8_take4 (T H : Nat) (hb pl : List Nat) :
    ((assemble T H hb pl).drop 8).take 4 =
      be32 (Crc32.checksum_u32 (be32 T ++ be32 H)) := by
  have hsplit : assemble T H hb pl = (be32 T ++ be32 H) ++
      (be32 (Crc32.checksum_u32 (be32 T ++ be32 H)) ++ (hb ++ (pl ++
        be32 (Crc32.checksum_u32 (be32 T ++ be32 H ++
          be32 (Crc32.checksum_u32 (be32 T ++ be32 H)) ++ hb ++ pl))))) := by
    simp [assemble, List.append_assoc]
  rw [hsplit, List.drop_left' (by simp [be32])]
  exact List.take_left' (by simp [be32])

theorem assemble_body (T H : Nat) (hb pl : List Nat) :
    (assemble T H hb pl).take (12 + hb.length + pl.length) =
      be32 T ++ be32 H ++
        be32 (Crc32.checksum_u32 (be32 T ++ be32 H)) ++ hb ++ pl := by
  have hsplit : assemble T H hb pl =
      (be32 T ++ be32 H ++
        be32 (Crc32.checksum_u32 (be32 T ++ be32 H)) ++ hb ++ pl) ++
      be32 (Crc32.checksum_u32 (be32 T ++ be32 H ++
        be32 (Crc32.checksum_u32 (be32 T ++ be32 H)) ++ hb ++ pl)) := by
    simp [assemble, List.append_assoc]
  rw [hsplit]
  refine List.take_left' ?_
  simp [be32]
  omega

theorem assemble_tail (T H : Nat) (hb pl : List Nat) :
    (assemble T H hb pl).drop (12 + hb.length + pl.length) =
      be32 (Crc32.checksum_u32
        (be32 T ++ be32 H ++
          be32 (Crc32.checksum_u32 (be32 T ++ be32 H)) ++ hb ++ pl)) := by
  have hsplit : assemble T H hb pl =
      (be32 T ++ be32 H ++
        be32 (Crc32.checksum_u32 (be32 T ++ be32 H)) ++ hb ++ pl) ++
      be32 (Crc32.checksum_u32 (be32 T ++ be32 H ++
        be32 (Crc32.checksum_u32 (be32 T ++ be32 H)) ++ hb ++ pl)) := by
    simp [assemble, List.append_assoc]
  rw [hsplit]
  refine List.drop_left' ?_
  simp [be32]
  omega

theorem assemble_drop12_region (T H : Nat) (hb pl : List Nat) :
    ((assemble T H hb pl).drop 12).take hb.length = hb := by
  have hsplit : assemble T H hb pl =
      (be32 T ++ be32 H ++ be32 (Crc32.checksum_u32 (be32 T ++ be32 H))) ++
      (hb ++ (pl ++
        be32 (Crc32.checksum_u32 (be32 T ++ be32 H ++
          be32 (Crc32.checksum_u32 (be32 T ++ be32 H)) ++ hb ++ pl)))) := by
    simp [assemble, List.append_assoc]
  rw [hsplit, List.drop_left' (by simp [be32])]
  exact List.take_left' rfl

theorem assemble_payload_region (T H : Nat) (hb pl : List Nat) :
    ((assemble T H hb pl).drop (12 + hb.length)).take pl.length = pl := by
  have hsplit : assemble T H hb pl =
      ((be32 T ++ be32 H ++ be32 (Crc32.checksum_u32 (be32 T ++ be32 H))) ++ hb) ++
      (pl ++
        be32 (Crc32.checksum_u32 (be32 T ++ be32 H ++
          be32 (Crc32.checksum_u32 (be32 T ++ be32 H)) ++ hb ++ pl))) := by
    simp [assemble, List.append_assoc]
  rw [hsplit, List.drop_left' (by simp [be32]; omega)]
  exact List.take_left' rfl

theorem length_le_headersWireLen (hs : List Header) :
    hs.length ≤ headersWireLen hs := by
  induction hs with
  | nil => simp [headersWireLen]
  | cons h t ih => simp only [headersWireLen, List.length_cons]; omega

theorem parseHeadersGo_encoded :
    ∀ (hs : List Header) (fuel : Nat) (bs : List Nat),
      encodeHeaders hs = .ok bs → hs.length ≤ fuel →
      parseHeadersGo fuel bs = some (headerPairs hs) := by
  intro hs
  induction hs with
  | nil =>
    intro fuel bs he _
    unfold encodeHeaders at he
    cases he
    cases fuel <;> simp [parseHeadersGo, headerPairs]
  | cons h t ih =>
    intro fuel bs he hf
    unfold encodeHeaders at he
    cases h1 : encodeHeader h with
    | error e => rw [h1] at he; cases he
    | ok b =>
      cases h2 : encodeHeaders t with
      | error e => rw [h1, h2] at he; cases he
      | ok r =>
        rw [h1, h2] at he
        cases he
        obtain ⟨hn, hv, rfl⟩ := encodeHeader_ok h1
        cases fuel with
        | zero => simp at hf
        | succ f =>
          have hf' : t.length ≤ f := by
            simp only [List.length_cons] at hf
            omega
          have hbs : ([h.name.length] ++ h.name ++ [7] ++ be16 h.value.length ++ h.value) ++ r =
              h.name.length :: (h.name ++ (7 :: (h.value.length / 256 % 256 ::
                (h.value.length % 256 :: (h.value ++ r))))) := by
            simp [be16, List.append_assoc]
          rw [hbs]
          simp only [parseHeadersGo]
          rw [if_pos (by simp only [List.length_append]; omega)]
          have hdrop : (h.name ++ (7 :: (h.value.length / 256 % 256 ::
              (h.value.length % 256 :: (h.value ++ r))))).drop h.name.length =
              7 :: (h.value.length / 256 % 256 ::
                (h.value.length % 256 :: (h.value ++ r))) :=
            List.drop_left _ _
          have htake : (h.name ++ (7 :: (h.value.length / 256 % 256 ::
              (h.value.length % 256 :: (h.value ++ r))))).take h.name.length = h.name :=
            List.take_left _ _
          rw [hdrop, htake]
          have hvl : h.value.length / 256 % 256 * 256 + h.value.length % 256 =
              h.value.length := by omega
          dsimp only
          rw [if_pos rfl, hvl]
          rw [if_pos (by simp only [List.length_append]; omega)]
          rw [List.drop_left, List.take_left]
          rw [ih f r h2 hf']
          simp [headerPairs]

theorem parse_serialize {m : Message} {out : List Nat}
    (h : m.serialize = .ok out) :
    parseMessage out = some (headerPairs m.headers,
      if m.payloadLen = 0 then none else m.payload) := by
  obtain ⟨hn, hb, hhn, henc, hlen, h32, rfl⟩ := serialize_ok_inv h
  have hplen : (m.payload.getD []).length = m.payloadLen := by
    cases hp : m.payload <;> simp [Message.payloadLen, hp]
  have hT32 : hn + 16 + m.payloadLen < 4294967296 := h32
  have hn32 : hn < 4294967296 := by omega
  have hout : (assemble (hn + 16 + m.payloadLen) hn hb (m.payload.getD [])).length =
      hn + 16 + m.payloadLen := by
    rw [assemble_length]
    omega
  have hTm4 : hn + 16 + m.payloadLen - 4 =
      12 + hb.length + (m.payload.getD []).length := by omega
  unfold parseMessage
  rw [assemble_take4, beToNat_be32 hT32]
  rw [if_neg (by omega)]
  rw [hout]
  rw [if_neg (by omega)]
  rw [assemble_drop8_take4,
    beToNat_be32 (crc32_checksum_u32_lt _), assemble_take8]
  rw [if_neg (by simp)]
  rw [hTm4, assemble_tail, assemble_body,
    beToNat_be32 (crc32_checksum_u32_lt _)]
  rw [if_neg (by simp)]
  rw [assemble_drop4_take4, beToNat_be32 hn32]
  rw [if_neg (by omega)]
  have hregion : ((assemble (hn + 16 + m.payloadLen) hn hb
      (m.payload.getD [])).drop 12).take hn = hb := by
    rw [← hlen]
    exact assemble_drop12_region _ _ _ _
  rw [hregion]
  unfold parseHeaders
  rw [parseHeadersGo_encoded m.headers hb.length hb henc
    (by rw [encodeHeaders_length henc]; exact length_le_headersWireLen _)]
  dsimp only
  by_cases hz : m.payloadLen = 0
  · rw [if_neg (by omega), if_pos hz]
  · rw [if_pos (by omega), if_neg hz]
    have harg : 12 + hb.length + (m.payload.getD []).length - (12 + hn) =
        (m.payload.getD []).length := by omega
    have hdroparg : (12 + hn : Nat) = 12 + hb.length := by omega
    rw [harg, hdroparg, assemble_payload_region]
    cases hp : m.payload with
    | none => simp [Message.payloadLen, hp] at hz
    | some p => simp [hp]

/-- C5: for every successfully serialized Message, the first 4 output
bytes read as a big-endian u32 equal the total output byte count, which is
the headers region length plus 16 bytes of fixed framing overhead plus the
payload length. -/
theorem C5_total_length_field (m : Message) (out : List Nat)
    (h : m.serialize = .ok out) :
    beToNat (out.take 4) = out.length ∧
    ∃ hb, encodeHeaders m.headers = .ok hb ∧
      out.length = hb.length + 16 + m.payloadLen := by
  obtain ⟨hn, hb, hhn, henc, hlen, h32, rfl⟩ := serialize_ok_inv h
  have hplen : (m.payload.getD []).length = m.payloadLen := by
    cases hp : m.payload <;> simp [Message.payloadLen, hp]
  refine ⟨?_, hb, henc, ?_⟩
  · rw [assemble_take4, beToNat_be32 h32, assemble_length]
    omega
  · rw [assemble_length]
    omega

/-- C5 witness: the total-length property evaluated on a concrete
message. -/
theorem C5_total_length_field_witness :
    beToNat (c5Bytes.take 4) = c5Bytes.length ∧
    ∃ hb, encodeHeaders c5Message.headers = .ok hb ∧
      c5Bytes.length = hb.length + 16 + c5Message.payloadLen :=
  C5_total_length_field c5Message c5Bytes (by decide)

/-- C6: for every successfully serialized Message, bytes 8..12 are the
big-endian CRC-32/ISO-HDLC of the first 8 output bytes, and the last 4
bytes are the big-endian CRC-32/ISO-HDLC of all preceding output bytes. -/
theorem C6_crc_fields (m : Message) (out : List Nat)
    (h : m.serialize = .ok out) :
    (out.drop 8).take 4 = be32 (Crc32.checksum_u32 (out.take 8)) ∧
    out.drop (out.length - 4) = be32 (Crc32.checksum_u32 (out.take (out.length - 4))) := by
  obtain ⟨hn, hb, hhn, henc, hlen, h32, rfl⟩ := serialize_ok_inv h
  constructor
  · rw [assemble_drop8_take4, assemble_take8]
  · have hL : (assemble (hn + 16 + m.payloadLen) hn hb (m.payload.getD [])).length - 4 =
        12 + hb.length + (m.payload.getD []).length := by
      rw [assemble_length]
      omega
    rw [hL, assemble_tail, assemble_body]

/-- C6 witness: the two CRC fields evaluated on a concrete message. -/
theorem C6_crc_fields_witness :
    (c6Bytes.drop 8).take 4 = be32 (Crc32.checksum_u32 (c6Bytes.take 8)) ∧
    c6Bytes.drop (c6Bytes.length - 4) =
      be32 (Crc32.checksum_u32 (c6Bytes.take (c6Bytes.length - 4))) :=
  C6_crc_fields c6Message c6Bytes (by decide)

/-- C4: a Message containing a header whose name is 256 bytes or longer or
whose value is 65536 bytes or longer fails serialization with an overflow
error (the only error kinds of `SerError`) and yields no output bytes. -/
theorem C4_oversized_header_fails (m : Message) (hd : Header)
    (hmem : hd ∈ m.headers)
    (hbig : 256 ≤ hd.name.length ∨ 65536 ≤ hd.value.length) :
    (∃ e, m.serialize = .error e) ∧ ∀ out, m.serialize ≠ .ok out := by
  cases hser : m.serialize with
  | ok out =>
    exfalso
    obtain ⟨hn, hb, hhn, henc, -, -, -⟩ := serialize_ok_inv hser
    have hbounds := encodeHeaders_ok_forall henc hd hmem
    omega
  | error e =>
    refine ⟨⟨e, rfl⟩, ?_⟩
    intro out hok
    exact Except.noConfusion hok

/-- C4 witness: a 256-byte header name on a concrete message. -/
theorem C4_oversized_header_fails_witness :
    (∃ e, c4Message.serialize = .error e) ∧
    ∀ out, c4Message.serialize ≠ .ok out :=
  C4_oversized_header_fails c4Message c4Header (by decide) (by decide)

/-- C10: serializing a Message whose payload is `Some` of the empty byte
string yields exactly the same bytes as serializing it with payload
`None`, for every header list; the wire format cannot distinguish the
two. -/
theorem C10_empty_payload_indistinguishable (hs : List Header) :
    Message.serialize ⟨hs, some []⟩ = Message.serialize ⟨hs, none⟩ := rfl

/-- C1 counterexample: the round-trip is not exact as claimed. The
message `c1Message` carries the explicitly empty payload `some []`, its
serialization succeeds, yet decoding the produced bytes recovers payload
`none`, not `some []`. -/
theorem C1_exact_roundtrip_counterexample :
    c1Message.serialize = .ok c1Bytes ∧
    c1Message.payload = some [] ∧
    parseMessage c1Bytes = some (headerPairs c1Message.headers, none) ∧
    (none : Option (List Nat)) ≠ c1Message.payload := by
  refine ⟨by decide, rfl, by decide, by decide⟩

/-- C1 (amended): decoding a successfully serialized Message recovers the
exact header list (names, values, order) and the payload up to the wire
format's identification of an empty payload with an absent one: a nonempty
payload and an absent payload are recovered exactly, while `some []` is
recovered as `none`. -/
theorem C1_roundtrip (m : Message) (out : List Nat)
    (h : m.serialize = .ok out) :
    parseMessage out = some (headerPairs m.headers,
      if m.payloadLen = 0 then none else m.payload) :=
  parse_serialize h

/-- C1 witness: the round-trip on a concrete message with a nonempty
payload. -/
theorem C1_roundtrip_witness :
    parseMessage c1wBytes = some (headerPairs c1wMessage.headers,
      if c1wMessage.payloadLen = 0 then none else c1wMessage.payload) :=
  C1_roundtrip c1wMessage c1wBytes (by decide)

/-- C2: when the upstream sequence ends with a terminal request-level
error whose error frame serializes successfully, the adapter emits that
frame as a successful (non-fault) chunk, it is the final chunk, the output
ends after it, and every transport-level fault in the output is a local
serialization (`SerError`) failure of some upstream item. -/
theorem C2_terminal_error_absorbed (xmlP : Progress → List Nat)
    (xmlS : Stats → List Nat) (s : SelectObjectContentEventStream)
    (pre : List (Except S3Error SelectObjectContentEvent)) (e : S3Error)
    (bs : List Nat)
    (hterm : s.items = pre ++ [.error e])
    (hser : (request_level_error e).serialize = .ok bs) :
    (s.into_byte_stream xmlP xmlS).items =
      pre.map (event_into_bytes xmlP xmlS) ++ [.ok bs] ∧
    (s.into_byte_stream xmlP xmlS).items.getLast? = some (.ok bs) ∧
    (s.into_byte_stream xmlP xmlS).items.length = pre.length + 1 ∧
    ∀ serr, Except.error serr ∈ (s.into_byte_stream xmlP xmlS).items →
      ∃ it ∈ s.items, event_into_bytes xmlP xmlS it = .error serr := by
  have hitems : (s.into_byte_stream xmlP xmlS).items =
      s.items.map (event_into_bytes xmlP xmlS) := rfl
  have hmain : (s.into_byte_stream xmlP xmlS).items =
      pre.map (event_into_bytes xmlP xmlS) ++ [.ok bs] := by
    rw [hitems, hterm, List.map_append]
    simp [event_into_bytes, hser]
  refine ⟨hmain, ?_, ?_, ?_⟩
  · rw [hmain]
    exact List.getLast?_concat _
  · rw [hmain]
    simp
  · intro serr hmem
    rw [hitems] at hmem
    obtain ⟨it, hit, heq⟩ := List.mem_map.mp hmem
    exact ⟨it, hit, heq⟩

/-- C2 witness: a concrete upstream ending in an `InternalError`
request-level error. -/
theorem C2_terminal_error_absorbed_witness :
    (c2Stream.into_byte_stream xmlP0 xmlS0).items =
      List.map (event_into_bytes xmlP0 xmlS0) [] ++ [.ok c2Bytes] ∧
    (c2Stream.into_byte_stream xmlP0 xmlS0).items.getLast? = some (.ok c2Bytes) ∧
    (c2Stream.into_byte_stream xmlP0 xmlS0).items.length = List.length
      (α := Except S3Error SelectObjectContentEvent) [] + 1 ∧
    ∀ serr, Except.error serr ∈ (c2Stream.into_byte_stream xmlP0 xmlS0).items →
      ∃ it ∈ c2Stream.items, event_into_bytes xmlP0 xmlS0 it = .error serr :=
  C2_terminal_error_absorbed xmlP0 xmlS0 c2Stream [] c2Err c2Bytes rfl
    (serialize_ok_of (by decide) (by decide) (by decide))

/-- C3 counterexample: the adapter does not forward the upstream
`size_hint`. The upstream `c3Stream` reports `(1, some 1)`, while the byte
stream obtained via `into_byte_stream` reports the `Stream` default
`(0, none)` because `Wrapper` does not override `size_hint`. -/
theorem C3_size_hint_counterexample :
    c3Stream.sizeHint = (1, some 1) ∧
    (c3Stream.into_byte_stream xmlP0 xmlS0).sizeHint ≠ c3Stream.sizeHint := by
  refine ⟨rfl, by decide⟩

/-- C3 (amended): the adapter emits exactly one output chunk per upstream
item (the output is the image of the upstream items under
`event_into_bytes`), but its `size_hint` is the `Stream` default
`(0, none)` rather than the upstream's hint, because `Wrapper`'s `Stream`
impl does not override `size_hint`. -/
theorem C3_one_chunk_per_item (xmlP : Progress → List Nat)
    (xmlS : Stats → List Nat) (s : SelectObjectContentEventStream) :
    (s.into_byte_stream xmlP xmlS).items =
      s.items.map (event_into_bytes xmlP xmlS) ∧
    (s.into_byte_stream xmlP xmlS).items.length = s.items.length ∧
    (s.into_byte_stream xmlP xmlS).sizeHint = streamDefaultSizeHint := by
  refine ⟨rfl, ?_, rfl⟩
  simp [SelectObjectContentEventStream.into_byte_stream, Wrapper.items,
    SelectObjectContentEventStream.items]

theorem crcUpdate_append (poly reg : Nat) (a b : List Nat) :
    crcUpdate poly reg (a ++ b) = crcUpdate poly (crcUpdate poly reg a) b := by
  simp [crcUpdate, List.foldl_append]

/-- C7: for every domain event variant and every behaviour of the XML
serializer collaborator, the produced frame is exactly the section 4.4
table row: the fixed header set (with `message-type: event`) and the
listed payload. -/
theorem C7_event_to_frame_table (xmlP : Progress → List Nat)
    (xmlS : Stats → List Nat) (ev : SelectObjectContentEvent) :
    ev.into_message xmlP xmlS = specEventMessage xmlP xmlS ev := by
  cases ev <;> rfl

/-- C8: every request-level error translates to a frame with exactly three
headers — `:error-code` (the fixed string of a well-known kind or the
caller text of a custom kind), `:error-message` (the empty string when no
message is attached, never absent), `:message-type: error` — and no
payload. -/
theorem C8_error_frame_headers (e : S3Error) :
    (request_level_error e).headers =
      [⟨staticStr ":error-code", specErrorCodeBytes e.code⟩,
        ⟨staticStr ":error-message", e.message.getD []⟩,
        ⟨staticStr ":message-type", staticStr "error"⟩] ∧
    (request_level_error e).headers.length = 3 ∧
    (request_level_error e).payload = none := by
  obtain ⟨code, msg⟩ := e
  cases code <;> cases msg <;>
    simp [request_level_error, specErrorCodeBytes, S3ErrorCode.as_static_str,
      MESSAGE_TYPE]

/-- C9: for the composite checksum engine with any subset of algorithms
active, feeding a byte sequence in one `update` call or split into two
consecutive `update` calls yields the same result record after `finalize`
(identical base64 digests for every active algorithm), and the digest of
each algorithm is absent exactly when that algorithm is inactive. -/
theorem C9_split_update_digests (h : ChecksumHasher) (a b : List Nat) :
    ((h.update a).update b).finalize = (h.update (a ++ b)).finalize ∧
    (((h.update (a ++ b)).finalize).checksum_crc32 = none ↔ h.crc32 = none) ∧
    (((h.update (a ++ b)).finalize).checksum_crc32c = none ↔ h.crc32c = none) ∧
    (((h.update (a ++ b)).finalize).checksum_sha1 = none ↔ h.sha1 = none) ∧
    (((h.update (a ++ b)).finalize).checksum_sha256 = none ↔ h.sha256 = none) ∧
    (((h.update (a ++ b)).finalize).checksum_crc64nvme = none ↔ h.crc64nvme = none) := by
  have hupd : (h.update a).update b = h.update (a ++ b) := by
    simp [ChecksumHasher.update, Option.map_map, Function.comp_def,
      crcUpdate_append, List.append_assoc]
  refine ⟨by rw [hupd], ?_, ?_, ?_, ?_, ?_⟩ <;>
    simp [ChecksumHasher.finalize, ChecksumHasher.update, Option.map_eq_none]

end S3s
